import Mathlib

/-!
Shallow embedding of the CSV transaction engine (`src/main.rs`) and proofs
about it.

Modelling conventions:
* `rust_decimal::Decimal` (exact decimal arithmetic) is modelled by `Rat`.
* `u16` client ids and `u32` transaction ids are modelled by `Nat`; no
  claim depends on wrap-around, and the source never performs id arithmetic.
* The preallocated `[Option<Box<ClientState>>; 1 << 16]` array is modelled by
  an association list from client id to client state, with in-place slot
  update (`setClient`), mirroring writes to an array slot.
* `HashSet<TransactionId>` is modelled by a `List TransactionId` with
  membership-guarded insertion and filtering removal.
* `TxDatabase` (a `HashMap<TransactionId, TransactionRecord>` keyed by the
  record's own `transaction_id`) is modelled by a `List TransactionRecord`
  where `save` replaces any entry with the same transaction id.
* `expect`/`unwrap` panics on a missing amount are modelled by `step`
  returning `none` (fatal error); the always-successful `unwrap` after
  client creation is rendered total with `getD`.
-/

abbrev TransactionId := Nat
abbrev ClientId := Nat

inductive TransactionType where
  | Deposit
  | Withdrawal
  | Dispute
  | Resolve
  | Chargeback
deriving DecidableEq, Repr

structure TransactionRecord where
  transaction_type : TransactionType
  client_id : ClientId
  transaction_id : TransactionId
  value : Option Rat
deriving DecidableEq, Repr

structure ClientState where
  available : Rat
  held : Rat
  locked : Bool
  txns_under_dispute : List TransactionId
deriving DecidableEq, Repr

/-- Rust `ClientState::new()`: zero balances, unlocked, empty dispute set. -/
def ClientState.new : ClientState :=
  { available := 0, held := 0, locked := false, txns_under_dispute := [] }

/-- Rust `HashSet::insert`: add the id unless already present. -/
def setInsert (t : TransactionId) (s : List TransactionId) : List TransactionId :=
  if t ∈ s then s else t :: s

/-- Rust `HashSet::remove`: drop the id. -/
def setRemove (t : TransactionId) (s : List TransactionId) : List TransactionId :=
  s.filter (fun x => x ≠ t)

/-- The transaction record store (`TxDatabase`), keyed by `transaction_id`. -/
abbrev TxDatabase := List TransactionRecord

/-- Rust `TxDatabase::query`: look up the stored record with the given id. -/
def TxDatabase.query (db : TxDatabase) (tx_id : TransactionId) : Option TransactionRecord :=
  db.find? (fun r => r.transaction_id == tx_id)

/-- Rust `TxDatabase::save`: store `record` keyed by its own transaction id,
replacing any prior entry with the same id (`HashMap::insert`). -/
def TxDatabase.save (db : TxDatabase) (record : TransactionRecord) : TxDatabase :=
  record :: db.filter (fun r => r.transaction_id ≠ record.transaction_id)

/-- The client ledger: the `client_states` array, as a keyed map. -/
abbrev ClientStates := List (ClientId × ClientState)

/-- Read the slot for client `c` (`client_states[c]`). -/
def lookupClient (states : ClientStates) (c : ClientId) : Option ClientState :=
  (states.find? (fun p => p.1 == c)).map (fun p => p.2)

/-- Write the slot for client `c` (`client_states[c] = Some(state)`),
keeping every other slot as it was. -/
def setClient (states : ClientStates) (c : ClientId) (cs : ClientState) : ClientStates :=
  match states with
  | [] => [(c, cs)]
  | p :: rest => if p.1 = c then (c, cs) :: rest else p :: setClient rest c cs

/-- The mutable state threaded through `handle_transactions`:
the client state array, the first-seen client list, and the record store. -/
structure EngineState where
  client_states : ClientStates
  seen_clients : List ClientId
  tx_database : TxDatabase
deriving DecidableEq, Repr

def EngineState.initial : EngineState :=
  { client_states := [], seen_clients := [], tx_database := [] }

/-- The lazy client creation at the top of the loop body: if the slot for
`c` is empty it is filled with a fresh zeroed state. -/
def getOrCreateStates (states : ClientStates) (c : ClientId) : ClientStates :=
  if (lookupClient states c).isNone then setClient states c ClientState.new else states

/-- Rust `seen_clients.push(record.client_id)`, performed exactly when the slot
was empty before the loop body ran. -/
def pushSeen (states : ClientStates) (seen : List ClientId) (c : ClientId) : List ClientId :=
  if (lookupClient states c).isNone then seen ++ [c] else seen

/-- One iteration of the loop in `handle_transactions`: apply a single
parsed record to the engine state.  `none` models the `expect` panics on a
missing amount (a fatal error aborting the run). -/
def step (s : EngineState) (record : TransactionRecord) : Option EngineState :=
  let states0 := getOrCreateStates s.client_states record.client_id
  let seen0 := pushSeen s.client_states s.seen_clients record.client_id
  let client := (lookupClient states0 record.client_id).getD ClientState.new
  match record.transaction_type with
  | TransactionType.Deposit =>
      match record.value with
      | none => none
      | some value =>
          some { client_states :=
                   setClient states0 record.client_id
                     { client with available := client.available + value },
                 seen_clients := seen0,
                 tx_database := s.tx_database.save record }
  | TransactionType.Withdrawal =>
      match record.value with
      | none => none
      | some value =>
          if client.available < value then
            some { client_states := states0,
                   seen_clients := seen0,
                   tx_database := s.tx_database.save record }
          else
            some { client_states :=
                     setClient states0 record.client_id
                       { client with available := client.available - value },
                   seen_clients := seen0,
                   tx_database := s.tx_database.save record }
  | TransactionType.Dispute =>
      match s.tx_database.query record.transaction_id with
      | none =>
          some { client_states := states0, seen_clients := seen0,
                 tx_database := s.tx_database }
      | some referenced_tx =>
          match referenced_tx.value with
          | none => none
          | some value =>
              some { client_states :=
                       setClient states0 record.client_id
                         { client with
                           txns_under_dispute :=
                             setInsert referenced_tx.transaction_id client.txns_under_dispute,
                           available := client.available - value,
                           held := client.held + value },
                     seen_clients := seen0,
                     tx_database := s.tx_database }
  | TransactionType.Resolve =>
      match s.tx_database.query record.transaction_id with
      | none =>
          some { client_states := states0, seen_clients := seen0,
                 tx_database := s.tx_database }
      | some referenced_tx =>
          if referenced_tx.transaction_id ∈ client.txns_under_dispute then
            match referenced_tx.value with
            | none => none
            | some value =>
                some { client_states :=
                         setClient states0 record.client_id
                           { client with
                             txns_under_dispute :=
                               setRemove referenced_tx.transaction_id client.txns_under_dispute,
                             held := client.held - value,
                             available := client.available + value },
                       seen_clients := seen0,
                       tx_database := s.tx_database }
          else
            some { client_states := states0, seen_clients := seen0,
                   tx_database := s.tx_database }
  | TransactionType.Chargeback =>
      match s.tx_database.query record.transaction_id with
      | none =>
          some { client_states := states0, seen_clients := seen0,
                 tx_database := s.tx_database }
      | some referenced_tx =>
          if referenced_tx.transaction_id ∈ client.txns_under_dispute then
            match referenced_tx.value with
            | none => none
            | some value =>
                some { client_states :=
                         setClient states0 record.client_id
                           { client with
                             txns_under_dispute :=
                               setRemove referenced_tx.transaction_id client.txns_under_dispute,
                             held := client.held - value,
                             locked := true },
                       seen_clients := seen0,
                       tx_database := s.tx_database }
          else
            some { client_states := states0, seen_clients := seen0,
                   tx_database := s.tx_database }

/-- Rust `handle_transactions`: fold `step` over the input sequence, aborting on
the first fatal error. -/
def handle_transactions (s : EngineState) : List TransactionRecord → Option EngineState
  | [] => some s
  | record :: rest =>
      match step s record with
      | none => none
      | some s' => handle_transactions s' rest

/-- One output row (struct `ClientRecord`). -/
structure ClientRecord where
  client_id : ClientId
  available : Rat
  held : Rat
  total : Rat
  locked : Bool
deriving DecidableEq, Repr

/-- Rust `ClientRecord::from_id_and_state`. -/
def ClientRecord.from_id_and_state (id : ClientId) (state : ClientState) : ClientRecord :=
  { client_id := id,
    available := state.available,
    held := state.held,
    total := state.held + state.available,
    locked := state.locked }

/-- Rust `write_output`: one row per seen client, in the order of `seen_clients`. -/
def write_output (s : EngineState) : List ClientRecord :=
  s.seen_clients.map (fun cid =>
    ClientRecord.from_id_and_state cid ((lookupClient s.client_states cid).getD ClientState.new))

/-- The fold that appends each client id the first time it appears. -/
def seenFold (acc : List ClientId) (l : List ClientId) : List ClientId :=
  l.foldl (fun acc c => if c ∈ acc then acc else acc ++ [c]) acc

/-- The order in which client identifiers first appear in a list. -/
def firstSeen (l : List ClientId) : List ClientId :=
  seenFold [] l

/-- Run invariant: the first-seen list holds exactly the client ids that
have a ledger entry. -/
def SeenInv (s : EngineState) : Prop :=
  ∀ c : ClientId, c ∈ s.seen_clients ↔ (lookupClient s.client_states c).isSome

/-- Invariant of the record store: every stored record carries an amount. -/
def StoredValuesPresent (db : TxDatabase) : Prop :=
  ∀ r ∈ db, r.value.isSome

/-! ## Basic lemmas about the stores -/

theorem lookupClient_nil (c : ClientId) : lookupClient [] c = none := rfl

theorem lookupClient_cons (p : ClientId × ClientState) (rest : ClientStates) (c : ClientId) :
    lookupClient (p :: rest) c = if p.1 = c then some p.2 else lookupClient rest c := by
  by_cases h : p.1 = c
  · simp [lookupClient, List.find?_cons_of_pos, h]
  · simp [lookupClient, List.find?_cons_of_neg, h]

theorem lookupClient_setClient (states : ClientStates) (c c' : ClientId) (cs : ClientState) :
    lookupClient (setClient states c cs) c' =
      if c' = c then some cs else lookupClient states c' := by
  induction states with
  | nil =>
      by_cases h : c' = c
      · subst h
        simp [setClient, lookupClient_cons]
      · simp [setClient, lookupClient_cons, lookupClient_nil, h, Ne.symm h]
  | cons p rest ih =>
      by_cases hp : p.1 = c
      · subst hp
        by_cases h : c' = p.1
        · subst h
          simp [setClient, lookupClient_cons]
        · simp [setClient, lookupClient_cons, h, Ne.symm h]
      · by_cases h : c' = c
        · subst h
          simp [setClient, hp, lookupClient_cons, ih]
        · simp [setClient, hp, lookupClient_cons, ih, h]

theorem lookupClient_getOrCreate (states : ClientStates) (c c' : ClientId) :
    lookupClient (getOrCreateStates states c) c' =
      if c' = c then some ((lookupClient states c).getD ClientState.new)
      else lookupClient states c' := by
  unfold getOrCreateStates
  cases hfind : lookupClient states c with
  | none => simp [hfind, lookupClient_setClient]
  | some cs =>
      by_cases h : c' = c <;> simp [hfind, h]

theorem query_eq_some_id {db : TxDatabase} {t : TransactionId} {r : TransactionRecord}
    (h : db.query t = some r) : r.transaction_id = t := by
  have := List.find?_some h
  simpa using this

theorem query_mem {db : TxDatabase} {t : TransactionId} {r : TransactionRecord}
    (h : db.query t = some r) : r ∈ db :=
  List.mem_of_find?_eq_some h

theorem query_save_self (db : TxDatabase) (r : TransactionRecord) :
    (db.save r).query r.transaction_id = some r := by
  simp [TxDatabase.save, TxDatabase.query, List.find?_cons_of_pos]

theorem mem_setInsert_self (t : TransactionId) (s : List TransactionId) :
    t ∈ setInsert t s := by
  unfold setInsert
  split <;> simp_all

theorem not_mem_setRemove_self (t : TransactionId) (s : List TransactionId) :
    t ∉ setRemove t s := by
  simp [setRemove]

/-! ## Claim C1 -/

/-- C1: for every input sequence processed without a fatal error, every
emitted output row satisfies `total = available + held` for that client. -/
theorem c1_output_total_eq_available_add_held
    (recs : List TransactionRecord) (s : EngineState) (row : ClientRecord)
    (hrun : handle_transactions EngineState.initial recs = some s)
    (hrow : row ∈ write_output s) :
    row.total = row.available + row.held := by
  rcases List.mem_map.mp hrow with ⟨cid, _, hEq⟩
  subst hEq
  simp [ClientRecord.from_id_and_state, add_comm]

/-- Witness for C1 at a concrete run: a single deposit of 5 for client 1. -/
theorem c1_output_total_eq_available_add_held_witness :
    (⟨1, 5, 0, 5, false⟩ : ClientRecord).total =
      (⟨1, 5, 0, 5, false⟩ : ClientRecord).available +
        (⟨1, 5, 0, 5, false⟩ : ClientRecord).held :=
  c1_output_total_eq_available_add_held
    [⟨TransactionType.Deposit, 1, 1, some 5⟩]
    ⟨[(1, ⟨5, 0, false, []⟩)], [1], [⟨TransactionType.Deposit, 1, 1, some 5⟩]⟩
    ⟨1, 5, 0, 5, false⟩
    (by norm_num [handle_transactions, step, getOrCreateStates, pushSeen, lookupClient,
      setClient, TxDatabase.save, ClientState.new, EngineState.initial, List.find?])
    (by norm_num [write_output, lookupClient, ClientRecord.from_id_and_state,
      ClientState.new, List.find?])

/-! ## Claim C2 -/

/-- C2 counterexample: a Dispute referencing an id absent from the record
store, issued under a client id never seen before, does NOT leave the state
identical: the ledger gains a freshly zeroed client entry and the client id
is appended to the first-seen order list. -/
theorem c2_counterexample :
    TxDatabase.query EngineState.initial.tx_database 9 = none ∧
    step EngineState.initial ⟨TransactionType.Dispute, 5, 9, none⟩ ≠
      some EngineState.initial := by
  decide

/-- C2 (amended): when the record's client id already has a ledger entry, a
Dispute, Resolve, or Chargeback whose referenced transaction id is absent
from the record store leaves the entire state identical. -/
theorem c2_missing_tx_strict_noop (s : EngineState) (record : TransactionRecord)
    (hty : record.transaction_type = TransactionType.Dispute ∨
           record.transaction_type = TransactionType.Resolve ∨
           record.transaction_type = TransactionType.Chargeback)
    (hq : s.tx_database.query record.transaction_id = none)
    (hc : (lookupClient s.client_states record.client_id).isSome) :
    step s record = some s := by
  have h0 : getOrCreateStates s.client_states record.client_id = s.client_states := by
    unfold getOrCreateStates
    cases h : lookupClient s.client_states record.client_id with
    | none => rw [h] at hc; simp at hc
    | some cs => simp
  have h1 : pushSeen s.client_states s.seen_clients record.client_id = s.seen_clients := by
    unfold pushSeen
    cases h : lookupClient s.client_states record.client_id with
    | none => rw [h] at hc; simp at hc
    | some cs => simp
  rcases hty with h | h | h <;> simp [step, h, hq, h0, h1]

/-- Witness for C2 (amended): client 1 already exists; a Resolve referencing
the absent transaction id 7 is a strict no-op. -/
theorem c2_missing_tx_strict_noop_witness :
    step ⟨[(1, ClientState.new)], [1], []⟩ ⟨TransactionType.Resolve, 1, 7, none⟩ =
      some ⟨[(1, ClientState.new)], [1], []⟩ :=
  c2_missing_tx_strict_noop ⟨[(1, ClientState.new)], [1], []⟩
    ⟨TransactionType.Resolve, 1, 7, none⟩ (Or.inr (Or.inl rfl)) (by decide) (by decide)

theorem lookupClient_getOrCreate_self (states : ClientStates) (c : ClientId) :
    lookupClient (getOrCreateStates states c) c =
      some ((lookupClient states c).getD ClientState.new) := by
  simp [lookupClient_getOrCreate]

/-! ## Claim C3 -/

/-- C3: a Withdrawal with amount present debits `available` by exactly the
amount when `available` covers it and changes no balance field otherwise;
in both cases the record is saved and is returned by a query for its
transaction id afterwards. -/
theorem c3_withdrawal_semantics (s s' : EngineState) (c : ClientId) (t : TransactionId)
    (a : Rat)
    (hstep : step s ⟨TransactionType.Withdrawal, c, t, some a⟩ = some s') :
    TxDatabase.query s'.tx_database t = some ⟨TransactionType.Withdrawal, c, t, some a⟩ ∧
    lookupClient s'.client_states c =
      some (if ((lookupClient s.client_states c).getD ClientState.new).available < a
            then (lookupClient s.client_states c).getD ClientState.new
            else { (lookupClient s.client_states c).getD ClientState.new with
                   available :=
                     ((lookupClient s.client_states c).getD ClientState.new).available - a }) := by
  simp only [step, lookupClient_getOrCreate_self, Option.getD_some] at hstep
  split at hstep
  · rename_i h
    injection hstep with hstep
    subst hstep
    refine ⟨query_save_self s.tx_database _, ?_⟩
    rw [if_pos h]
    exact lookupClient_getOrCreate_self s.client_states c
  · rename_i h
    injection hstep with hstep
    subst hstep
    refine ⟨query_save_self s.tx_database _, ?_⟩
    rw [if_neg h]
    simp [lookupClient_setClient]

/-- Witness for C3: client 1 holds 5 available and withdraws 3. -/
theorem c3_withdrawal_semantics_witness :
    TxDatabase.query (⟨[(1, ⟨2, 0, false, []⟩)], [1],
        [⟨TransactionType.Withdrawal, 1, 2, some 3⟩]⟩ : EngineState).tx_database 2 =
      some ⟨TransactionType.Withdrawal, 1, 2, some 3⟩ ∧
    lookupClient (⟨[(1, ⟨2, 0, false, []⟩)], [1],
        [⟨TransactionType.Withdrawal, 1, 2, some 3⟩]⟩ : EngineState).client_states 1 =
      some (if ((lookupClient [(1, ⟨5, 0, false, []⟩)] 1).getD ClientState.new).available < 3
            then (lookupClient [(1, ⟨5, 0, false, []⟩)] 1).getD ClientState.new
            else { (lookupClient [(1, ⟨5, 0, false, []⟩)] 1).getD ClientState.new with
                   available :=
                     ((lookupClient [(1, ⟨5, 0, false, []⟩)] 1).getD ClientState.new).available
                       - 3 }) :=
  c3_withdrawal_semantics ⟨[(1, ⟨5, 0, false, []⟩)], [1], []⟩
    ⟨[(1, ⟨2, 0, false, []⟩)], [1], [⟨TransactionType.Withdrawal, 1, 2, some 3⟩]⟩ 1 2 3
    (by norm_num [step, getOrCreateStates, pushSeen, lookupClient, setClient,
      TxDatabase.save, ClientState.new, List.find?])

/-! ## Claim C4 -/

/-- C4: a Dispute on a stored transaction `t` with amount `a` moves exactly
`a` from `available` to `held` and marks `t` disputed; an immediately
following Resolve on `t` restores the pre-dispute `available` and `held`
and unmarks `t`. -/
theorem c4_dispute_then_resolve_identity (s s1 s2 : EngineState) (c : ClientId)
    (t : TransactionId) (dv rv : Option Rat) (ref : TransactionRecord) (a : Rat)
    (cs : ClientState)
    (hq : s.tx_database.query t = some ref)
    (hv : ref.value = some a)
    (hc : lookupClient s.client_states c = some cs)
    (h1 : step s ⟨TransactionType.Dispute, c, t, dv⟩ = some s1)
    (h2 : step s1 ⟨TransactionType.Resolve, c, t, rv⟩ = some s2) :
    ((lookupClient s1.client_states c).getD ClientState.new).available = cs.available - a ∧
    ((lookupClient s1.client_states c).getD ClientState.new).held = cs.held + a ∧
    t ∈ ((lookupClient s1.client_states c).getD ClientState.new).txns_under_dispute ∧
    ((lookupClient s2.client_states c).getD ClientState.new).available = cs.available ∧
    ((lookupClient s2.client_states c).getD ClientState.new).held = cs.held ∧
    t ∉ ((lookupClient s2.client_states c).getD ClientState.new).txns_under_dispute := by
  have hct : ref.transaction_id = t := query_eq_some_id hq
  subst hct
  simp only [step, hq, hv, hc, lookupClient_getOrCreate_self, Option.getD_some,
    getOrCreateStates, pushSeen, Option.isNone_some, Bool.false_eq_true, if_false,
    Option.some.injEq] at h1
  subst h1
  simp only [lookupClient_setClient, if_pos rfl, Option.getD_some] at h2 ⊢
  simp only [step, hq, hv, lookupClient_getOrCreate_self, lookupClient_setClient,
    if_pos rfl, Option.getD_some, mem_setInsert_self, if_true, getOrCreateStates,
    pushSeen, Option.isNone_some, Bool.false_eq_true, if_false,
    Option.some.injEq] at h2
  subst h2
  refine ⟨?_, ?_, ?_, ?_, ?_, ?_⟩ <;>
    simp [lookupClient_setClient, mem_setInsert_self, not_mem_setRemove_self]

/-- Witness for C4: client 1 starts with available 10, held 2; transaction 1
(a deposit of 5) is disputed and then resolved. -/
theorem c4_dispute_then_resolve_identity_witness :
    (5 : Rat) = 10 - 5 ∧ (7 : Rat) = 2 + 5 ∧ (1 : TransactionId) ∈ [1] ∧
    (10 : Rat) = 10 ∧ (2 : Rat) = 2 ∧
    (1 : TransactionId) ∉ ([] : List TransactionId) :=
  c4_dispute_then_resolve_identity
    ⟨[(1, ⟨10, 2, false, []⟩)], [1], [⟨TransactionType.Deposit, 1, 1, some 5⟩]⟩
    ⟨[(1, ⟨5, 7, false, [1]⟩)], [1], [⟨TransactionType.Deposit, 1, 1, some 5⟩]⟩
    ⟨[(1, ⟨10, 2, false, []⟩)], [1], [⟨TransactionType.Deposit, 1, 1, some 5⟩]⟩
    1 1 none none ⟨TransactionType.Deposit, 1, 1, some 5⟩ 5 ⟨10, 2, false, []⟩
    (by decide) (by decide) (by decide)
    (by norm_num [step, getOrCreateStates, pushSeen, lookupClient, setClient,
      TxDatabase.query, setInsert, ClientState.new, List.find?])
    (by norm_num [step, getOrCreateStates, pushSeen, lookupClient, setClient,
      TxDatabase.query, setInsert, setRemove, ClientState.new, List.find?])

/-! ## Claim C5 -/

/-- C5: a Chargeback whose referenced transaction is stored and whose id is
in the client's disputed set removes the id from the disputed set, debits
`held` by exactly the referenced amount, sets `locked`, and leaves
`available` unchanged. -/
theorem c5_chargeback_semantics (s s' : EngineState) (c : ClientId) (t : TransactionId)
    (v : Option Rat) (ref : TransactionRecord) (a : Rat) (cs : ClientState)
    (hq : s.tx_database.query t = some ref)
    (hv : ref.value = some a)
    (hc : lookupClient s.client_states c = some cs)
    (hd : t ∈ cs.txns_under_dispute)
    (hstep : step s ⟨TransactionType.Chargeback, c, t, v⟩ = some s') :
    ((lookupClient s'.client_states c).getD ClientState.new).available = cs.available ∧
    ((lookupClient s'.client_states c).getD ClientState.new).held = cs.held - a ∧
    ((lookupClient s'.client_states c).getD ClientState.new).locked = true ∧
    t ∉ ((lookupClient s'.client_states c).getD ClientState.new).txns_under_dispute := by
  have hct : ref.transaction_id = t := query_eq_some_id hq
  subst hct
  simp only [step, hq, hv, hc, lookupClient_getOrCreate_self, Option.getD_some,
    getOrCreateStates, pushSeen, Option.isNone_some, Bool.false_eq_true, if_false,
    hd, if_true, Option.some.injEq] at hstep
  subst hstep
  refine ⟨?_, ?_, ?_, ?_⟩ <;>
    simp [lookupClient_setClient, not_mem_setRemove_self]

/-- Witness for C5: deposit 5 for client 1 is under dispute (available 0,
held 5); the chargeback zeroes `held`, locks the account, and leaves
`available` at 0. -/
theorem c5_chargeback_semantics_witness :
    (0 : Rat) = 0 ∧ (0 : Rat) = 5 - 5 ∧ true = true ∧
    (1 : TransactionId) ∉ ([] : List TransactionId) :=
  c5_chargeback_semantics
    ⟨[(1, ⟨0, 5, false, [1]⟩)], [1], [⟨TransactionType.Deposit, 1, 1, some 5⟩]⟩
    ⟨[(1, ⟨0, 0, true, []⟩)], [1], [⟨TransactionType.Deposit, 1, 1, some 5⟩]⟩
    1 1 none ⟨TransactionType.Deposit, 1, 1, some 5⟩ 5 ⟨0, 5, false, [1]⟩
    (by decide) (by decide) (by decide) (by decide)
    (by norm_num [step, getOrCreateStates, pushSeen, lookupClient, setClient,
      TxDatabase.query, setRemove, ClientState.new, List.find?])

/-! ## Claim C6 -/

/-- C6: a Resolve or Chargeback whose referenced transaction is stored but
whose id is not in the consulted client's disputed set is a no-op on the
listed components: the record store is unchanged and every client that has
a ledger entry keeps it unchanged (balance fields, locked flag, disputed
set). -/
theorem c6_undisputed_noop (s s' : EngineState) (record : TransactionRecord)
    (c : ClientId) (cs : ClientState) (ref : TransactionRecord)
    (hty : record.transaction_type = TransactionType.Resolve ∨
           record.transaction_type = TransactionType.Chargeback)
    (hq : s.tx_database.query record.transaction_id = some ref)
    (hnd : ref.transaction_id ∉
        ((lookupClient s.client_states record.client_id).getD
          ClientState.new).txns_under_dispute)
    (hcs : lookupClient s.client_states c = some cs)
    (hstep : step s record = some s') :
    s'.tx_database = s.tx_database ∧ lookupClient s'.client_states c = some cs := by
  rcases hty with h | h <;>
  · simp only [step, h, hq, lookupClient_getOrCreate_self, Option.getD_some] at hstep
    rw [if_neg hnd] at hstep
    injection hstep with hstep
    subst hstep
    refine ⟨rfl, ?_⟩
    rw [lookupClient_getOrCreate]
    by_cases hcc : c = record.client_id
    · subst hcc
      rw [if_pos rfl, hcs]
      rfl
    · rw [if_neg hcc]
      exact hcs

/-- Witness for C6: transaction 1 is stored; client 2 (fresh) issues a
Resolve on it while it is not disputed; client 1 keeps its state and the
store is untouched. -/
theorem c6_undisputed_noop_witness :
    ([⟨TransactionType.Deposit, 1, 1, some 5⟩] : TxDatabase) =
      [⟨TransactionType.Deposit, 1, 1, some 5⟩] ∧
    lookupClient [(1, ⟨5, 0, false, []⟩), (2, ClientState.new)] 1 =
      some ⟨5, 0, false, []⟩ :=
  c6_undisputed_noop
    ⟨[(1, ⟨5, 0, false, []⟩)], [1], [⟨TransactionType.Deposit, 1, 1, some 5⟩]⟩
    ⟨[(1, ⟨5, 0, false, []⟩), (2, ClientState.new)], [1, 2],
      [⟨TransactionType.Deposit, 1, 1, some 5⟩]⟩
    ⟨TransactionType.Resolve, 2, 1, none⟩ 1 ⟨5, 0, false, []⟩
    ⟨TransactionType.Deposit, 1, 1, some 5⟩
    (Or.inl rfl) (by decide) (by decide) (by decide) (by decide)

/-! ## Claim C8 -/

/-- C8: saving two amount-carrying records with the same transaction id in
sequence is whole-entry replacement: a query for the id afterwards returns
the later record, and the two saves collapse to a single save of the later
record. -/
theorem c8_save_last_write_wins (db : TxDatabase) (r1 r2 : TransactionRecord)
    (ht1 : r1.transaction_type = TransactionType.Deposit ∨
           r1.transaction_type = TransactionType.Withdrawal)
    (ht2 : r2.transaction_type = TransactionType.Deposit ∨
           r2.transaction_type = TransactionType.Withdrawal)
    (hid : r1.transaction_id = r2.transaction_id) :
    ((db.save r1).save r2).query r2.transaction_id = some r2 ∧
    (db.save r1).save r2 = db.save r2 := by
  refine ⟨query_save_self _ _, ?_⟩
  simp [TxDatabase.save, hid, List.filter_filter]

/-- Witness for C8: two deposits reuse transaction id 1; the store ends up
holding only the second one. -/
theorem c8_save_last_write_wins_witness :
    ((TxDatabase.save (TxDatabase.save [] ⟨TransactionType.Deposit, 1, 1, some 5⟩)
        ⟨TransactionType.Deposit, 2, 1, some 7⟩).query 1 =
      some ⟨TransactionType.Deposit, 2, 1, some 7⟩) ∧
    TxDatabase.save (TxDatabase.save [] ⟨TransactionType.Deposit, 1, 1, some 5⟩)
        ⟨TransactionType.Deposit, 2, 1, some 7⟩ =
      TxDatabase.save [] ⟨TransactionType.Deposit, 2, 1, some 7⟩ :=
  c8_save_last_write_wins [] ⟨TransactionType.Deposit, 1, 1, some 5⟩
    ⟨TransactionType.Deposit, 2, 1, some 7⟩ (Or.inl rfl) (Or.inl rfl) rfl

/-! ## Claim C9 -/

/-- C9: a Dispute applies its balance delta to the client id carried by the
dispute record itself, even when the referenced record belongs to a
different client, whose ledger entry is untouched. -/
theorem c9_dispute_uses_record_client (s s' : EngineState) (c : ClientId)
    (t : TransactionId) (dv : Option Rat) (ref : TransactionRecord) (a : Rat)
    (hq : s.tx_database.query t = some ref)
    (hv : ref.value = some a)
    (hcc : ref.client_id ≠ c)
    (hstep : step s ⟨TransactionType.Dispute, c, t, dv⟩ = some s') :
    ((lookupClient s'.client_states c).getD ClientState.new).available =
      ((lookupClient s.client_states c).getD ClientState.new).available - a ∧
    ((lookupClient s'.client_states c).getD ClientState.new).held =
      ((lookupClient s.client_states c).getD ClientState.new).held + a ∧
    t ∈ ((lookupClient s'.client_states c).getD ClientState.new).txns_under_dispute ∧
    lookupClient s'.client_states ref.client_id =
      lookupClient s.client_states ref.client_id := by
  have hct : ref.transaction_id = t := query_eq_some_id hq
  subst hct
  simp only [step, hq, hv, lookupClient_getOrCreate_self, Option.getD_some,
    Option.some.injEq] at hstep
  subst hstep
  refine ⟨?_, ?_, ?_, ?_⟩
  · simp [lookupClient_setClient]
  · simp [lookupClient_setClient]
  · simp [lookupClient_setClient, mem_setInsert_self]
  · rw [lookupClient_setClient, if_neg hcc, lookupClient_getOrCreate, if_neg hcc]

/-- Witness for C9: client 1 disputes transaction 1, a deposit that belongs
to client 2; client 1 (freshly created) absorbs the delta and client 2's
slot stays empty. -/
theorem c9_dispute_uses_record_client_witness :
    (-5 : Rat) = 0 - 5 ∧ (5 : Rat) = 0 + 5 ∧ (1 : TransactionId) ∈ [1] ∧
    (none : Option ClientState) = none :=
  c9_dispute_uses_record_client
    ⟨[], [], [⟨TransactionType.Deposit, 2, 1, some 5⟩]⟩
    ⟨[(1, ⟨-5, 5, false, [1]⟩)], [1], [⟨TransactionType.Deposit, 2, 1, some 5⟩]⟩
    1 1 none ⟨TransactionType.Deposit, 2, 1, some 5⟩ 5
    (by decide) (by decide) (by decide)
    (by norm_num [step, getOrCreateStates, pushSeen, lookupClient, setClient,
      TxDatabase.query, setInsert, ClientState.new, List.find?])

/-! ## Step shape and run invariants -/

theorem step_shape (s : EngineState) (record : TransactionRecord) (s' : EngineState)
    (h : step s record = some s') :
    s'.seen_clients = pushSeen s.client_states s.seen_clients record.client_id ∧
    (s'.client_states = getOrCreateStates s.client_states record.client_id ∨
     ∃ cs, s'.client_states =
       setClient (getOrCreateStates s.client_states record.client_id) record.client_id cs) ∧
    (s'.tx_database = s.tx_database ∨
     (s'.tx_database = s.tx_database.save record ∧ ∃ a, record.value = some a)) := by
  rcases record with ⟨ty, c, t, v⟩
  cases ty
  case Deposit =>
    cases v with
    | none =>
        simp only [step] at h
        exact Option.noConfusion h
    | some a =>
        simp only [step, Option.some.injEq] at h
        subst h
        exact ⟨rfl, Or.inr ⟨_, rfl⟩, Or.inr ⟨rfl, a, rfl⟩⟩
  case Withdrawal =>
    cases v with
    | none =>
        simp only [step] at h
        exact Option.noConfusion h
    | some a =>
        simp only [step] at h
        split at h <;>
        · simp only [Option.some.injEq] at h
          subst h
          first
          | exact ⟨rfl, Or.inl rfl, Or.inr ⟨rfl, a, rfl⟩⟩
          | exact ⟨rfl, Or.inr ⟨_, rfl⟩, Or.inr ⟨rfl, a, rfl⟩⟩
  case Dispute =>
    cases hq : TxDatabase.query s.tx_database t with
    | none =>
        simp only [step, hq, Option.some.injEq] at h
        subst h
        exact ⟨rfl, Or.inl rfl, Or.inl rfl⟩
    | some ref =>
        cases hv : ref.value with
        | none =>
            simp only [step, hq, hv] at h
            exact Option.noConfusion h
        | some a =>
            simp only [step, hq, hv, Option.some.injEq] at h
            subst h
            exact ⟨rfl, Or.inr ⟨_, rfl⟩, Or.inl rfl⟩
  case Resolve =>
    cases hq : TxDatabase.query s.tx_database t with
    | none =>
        simp only [step, hq, Option.some.injEq] at h
        subst h
        exact ⟨rfl, Or.inl rfl, Or.inl rfl⟩
    | some ref =>
        simp only [step, hq] at h
        split at h
        · cases hv : ref.value with
          | none =>
              rw [hv] at h
              exact Option.noConfusion h
          | some a =>
              rw [hv] at h
              simp only [Option.some.injEq] at h
              subst h
              exact ⟨rfl, Or.inr ⟨_, rfl⟩, Or.inl rfl⟩
        · simp only [Option.some.injEq] at h
          subst h
          exact ⟨rfl, Or.inl rfl, Or.inl rfl⟩
  case Chargeback =>
    cases hq : TxDatabase.query s.tx_database t with
    | none =>
        simp only [step, hq, Option.some.injEq] at h
        subst h
        exact ⟨rfl, Or.inl rfl, Or.inl rfl⟩
    | some ref =>
        simp only [step, hq] at h
        split at h
        · cases hv : ref.value with
          | none =>
              rw [hv] at h
              exact Option.noConfusion h
          | some a =>
              rw [hv] at h
              simp only [Option.some.injEq] at h
              subst h
              exact ⟨rfl, Or.inr ⟨_, rfl⟩, Or.inl rfl⟩
        · simp only [Option.some.injEq] at h
          subst h
          exact ⟨rfl, Or.inl rfl, Or.inl rfl⟩

theorem seenFold_cons (acc : List ClientId) (c : ClientId) (l : List ClientId) :
    seenFold acc (c :: l) = seenFold (if c ∈ acc then acc else acc ++ [c]) l := rfl

theorem mem_seenFold (l : List ClientId) (acc : List ClientId) (x : ClientId) :
    x ∈ seenFold acc l ↔ x ∈ acc ∨ x ∈ l := by
  induction l generalizing acc with
  | nil => simp [seenFold]
  | cons c l ih =>
      rw [seenFold_cons, ih]
      by_cases h : c ∈ acc
      · simp only [h, if_true, List.mem_cons]
        constructor
        · intro hx
          tauto
        · rintro (hx | rfl | hx) <;> tauto
      · simp only [h, if_false, List.mem_append, List.mem_singleton, List.mem_cons]
        tauto

theorem seenFold_nodup (l : List ClientId) (acc : List ClientId) (h : acc.Nodup) :
    (seenFold acc l).Nodup := by
  induction l generalizing acc with
  | nil => simpa [seenFold]
  | cons c l ih =>
      rw [seenFold_cons]
      by_cases hc : c ∈ acc
      · rw [if_pos hc]
        exact ih acc h
      · rw [if_neg hc]
        refine ih _ (h.append (List.nodup_singleton c) ?_)
        intro a ha hb
        rw [List.mem_singleton] at hb
        subst hb
        exact hc ha

theorem step_seen_inv (s s' : EngineState) (record : TransactionRecord)
    (hinv : SeenInv s) (h : step s record = some s') :
    s'.seen_clients =
      (if record.client_id ∈ s.seen_clients then s.seen_clients
       else s.seen_clients ++ [record.client_id]) ∧ SeenInv s' := by
  obtain ⟨hseen, hstates, -⟩ := step_shape s record s' h
  have hiso : ∀ x, (lookupClient s'.client_states x).isSome ↔
      (x = record.client_id ∨ (lookupClient s.client_states x).isSome) := by
    intro x
    by_cases hx : x = record.client_id
    · subst hx
      rcases hstates with hst | ⟨cs, hst⟩ <;> rw [hst] <;>
        simp [lookupClient_setClient, lookupClient_getOrCreate]
    · rcases hstates with hst | ⟨cs, hst⟩ <;> rw [hst] <;>
        simp [lookupClient_setClient, lookupClient_getOrCreate, hx]
  have hseen' : s'.seen_clients =
      (if record.client_id ∈ s.seen_clients then s.seen_clients
       else s.seen_clients ++ [record.client_id]) := by
    rw [hseen]
    unfold pushSeen
    cases hl : lookupClient s.client_states record.client_id with
    | none =>
        have hnotin : record.client_id ∉ s.seen_clients := by
          intro hin
          have hs := (hinv record.client_id).mp hin
          rw [hl] at hs
          simp at hs
        simp [hnotin]
    | some cs =>
        have hin : record.client_id ∈ s.seen_clients :=
          (hinv record.client_id).mpr (by rw [hl]; rfl)
        simp [hin]
  refine ⟨hseen', fun x => ?_⟩
  rw [hseen', hiso x]
  by_cases hx : x = record.client_id
  · subst hx
    by_cases hin : record.client_id ∈ s.seen_clients <;> simp [hin]
  · by_cases hin : record.client_id ∈ s.seen_clients <;>
      simp [hin, hx, List.mem_append, hinv x]

theorem handle_seen (recs : List TransactionRecord) (s s' : EngineState)
    (hinv : SeenInv s)
    (h : handle_transactions s recs = some s') :
    s'.seen_clients = seenFold s.seen_clients (recs.map (fun r => r.client_id)) ∧
    SeenInv s' := by
  induction recs generalizing s with
  | nil =>
      simp only [handle_transactions, Option.some.injEq] at h
      subst h
      exact ⟨rfl, hinv⟩
  | cons r rest ih =>
      cases hstep : step s r with
      | none =>
          simp only [handle_transactions, hstep] at h
          exact Option.noConfusion h
      | some s1 =>
          simp only [handle_transactions, hstep] at h
          obtain ⟨hseen1, hinv1⟩ := step_seen_inv s s1 r hinv hstep
          obtain ⟨hseen', hinv'⟩ := ih s1 hinv1 h
          refine ⟨?_, hinv'⟩
          rw [hseen', hseen1, List.map_cons, seenFold_cons]

theorem write_output_client_ids (s : EngineState) :
    (write_output s).map (fun row => row.client_id) = s.seen_clients := by
  unfold write_output
  rw [List.map_map]
  have hcomp : ((fun row => ClientRecord.client_id row) ∘ fun cid =>
      ClientRecord.from_id_and_state cid
        ((lookupClient s.client_states cid).getD ClientState.new)) = fun cid => cid := by
    funext cid
    rfl
  rw [hcomp]
  exact List.map_id _

/-! ## Claim C7 -/

/-- C7: the output has exactly one row per distinct client id of the input
(no duplicates, and a row exists exactly for the ids that appear), in the
order in which each client id first appears in the input. -/
theorem c7_output_first_seen_order (recs : List TransactionRecord) (s : EngineState)
    (c : ClientId)
    (hrun : handle_transactions EngineState.initial recs = some s) :
    (write_output s).map (fun row => row.client_id) =
      firstSeen (recs.map (fun r => r.client_id)) ∧
    ((write_output s).map (fun row => row.client_id)).Nodup ∧
    (c ∈ (write_output s).map (fun row => row.client_id) ↔
      c ∈ recs.map (fun r => r.client_id)) := by
  have hinv0 : SeenInv EngineState.initial := by
    intro x
    simp [EngineState.initial, lookupClient, List.find?]
  obtain ⟨hseen, -⟩ := handle_seen recs EngineState.initial s hinv0 hrun
  rw [write_output_client_ids, hseen]
  refine ⟨rfl, seenFold_nodup _ _ List.nodup_nil, ?_⟩
  rw [mem_seenFold]
  simp [EngineState.initial]

/-- Witness for C7: clients appear in the input in the order 7, 3, 7; the
output order is [7, 3], which is first-seen order, not sorted order. -/
theorem c7_output_first_seen_order_witness :
    ([7, 3] : List ClientId) = firstSeen [7, 3, 7] ∧
    ([7, 3] : List ClientId).Nodup ∧
    ((3 : ClientId) ∈ ([7, 3] : List ClientId) ↔
      (3 : ClientId) ∈ ([7, 3, 7] : List ClientId)) :=
  c7_output_first_seen_order
    [⟨TransactionType.Deposit, 7, 1, some 1⟩, ⟨TransactionType.Deposit, 3, 2, some 1⟩,
     ⟨TransactionType.Deposit, 7, 3, some 1⟩]
    ⟨[(7, ⟨2, 0, false, []⟩), (3, ⟨1, 0, false, []⟩)], [7, 3],
     [⟨TransactionType.Deposit, 7, 3, some 1⟩, ⟨TransactionType.Deposit, 3, 2, some 1⟩,
      ⟨TransactionType.Deposit, 7, 1, some 1⟩]⟩
    3
    (by norm_num [handle_transactions, step, getOrCreateStates, pushSeen, lookupClient,
      setClient, TxDatabase.save, ClientState.new, EngineState.initial, List.find?,
      List.filter]
        <;> decide)

/-! ## Claim C10 -/

theorem stored_save (db : TxDatabase) (record : TransactionRecord) (a : Rat)
    (hdb : StoredValuesPresent db) (hv : record.value = some a) :
    StoredValuesPresent (db.save record) := by
  intro r hr
  rcases List.mem_cons.mp hr with h | h
  · subst h
    simp [hv]
  · exact hdb r (List.mem_of_mem_filter h)

theorem handle_preserves_stored (recs : List TransactionRecord) (s s' : EngineState)
    (hdb : StoredValuesPresent s.tx_database)
    (h : handle_transactions s recs = some s') :
    StoredValuesPresent s'.tx_database := by
  induction recs generalizing s with
  | nil =>
      simp only [handle_transactions, Option.some.injEq] at h
      subst h
      exact hdb
  | cons r rest ih =>
      cases hstep : step s r with
      | none =>
          simp only [handle_transactions, hstep] at h
          exact Option.noConfusion h
      | some s1 =>
          simp only [handle_transactions, hstep] at h
          refine ih s1 ?_ h
          obtain ⟨-, -, hdb1⟩ := step_shape s r s1 hstep
          rcases hdb1 with hdb1 | ⟨hdb1, a, ha⟩
          · rw [hdb1]
            exact hdb
          · rw [hdb1]
            exact stored_save s.tx_database r a hdb ha

theorem step_dispute_family_isSome (s : EngineState) (record : TransactionRecord)
    (hdb : StoredValuesPresent s.tx_database)
    (hty : record.transaction_type = TransactionType.Dispute ∨
           record.transaction_type = TransactionType.Resolve ∨
           record.transaction_type = TransactionType.Chargeback) :
    (step s record).isSome := by
  rcases record with ⟨ty, c, t, v⟩
  have hval : ∀ ref, TxDatabase.query s.tx_database t = some ref → ∃ a, ref.value = some a := by
    intro ref hq
    exact Option.isSome_iff_exists.mp (hdb ref (query_mem hq))
  rcases hty with h | h | h <;> simp only at h <;> subst h <;>
  · cases hq : TxDatabase.query s.tx_database t with
    | none => simp [step, hq]
    | some ref =>
        obtain ⟨a, ha⟩ := hval ref hq
        simp only [step, hq, ha]
        first
        | simp
        | · split <;> simp

/-- C10: along every successful run from the initial state, each stored
record carries a present amount, so a Dispute, Resolve, or Chargeback
applied to the resulting state never reaches the fatal missing-amount
branch (its step always succeeds). -/
theorem c10_stored_amounts_always_present (recs : List TransactionRecord)
    (s : EngineState) (record : TransactionRecord)
    (hrun : handle_transactions EngineState.initial recs = some s)
    (hty : record.transaction_type = TransactionType.Dispute ∨
           record.transaction_type = TransactionType.Resolve ∨
           record.transaction_type = TransactionType.Chargeback) :
    StoredValuesPresent s.tx_database ∧ (step s record).isSome := by
  have h0 : StoredValuesPresent EngineState.initial.tx_database := by
    intro r hr
    cases hr
  have hdb := handle_preserves_stored recs EngineState.initial s h0 hrun
  exact ⟨hdb, step_dispute_family_isSome s record hdb hty⟩

/-- Witness for C10: after a single deposit, the store carries an amount
and a Dispute referencing it succeeds. -/
theorem c10_stored_amounts_always_present_witness :
    StoredValuesPresent [⟨TransactionType.Deposit, 1, 1, some 5⟩] ∧
    (step ⟨[(1, ⟨5, 0, false, []⟩)], [1], [⟨TransactionType.Deposit, 1, 1, some 5⟩]⟩
      ⟨TransactionType.Dispute, 1, 1, none⟩).isSome :=
  c10_stored_amounts_always_present [⟨TransactionType.Deposit, 1, 1, some 5⟩]
    ⟨[(1, ⟨5, 0, false, []⟩)], [1], [⟨TransactionType.Deposit, 1, 1, some 5⟩]⟩
    ⟨TransactionType.Dispute, 1, 1, none⟩
    (by norm_num [handle_transactions, step, getOrCreateStates, pushSeen, lookupClient,
      setClient, TxDatabase.save, ClientState.new, EngineState.initial, List.find?])
    (Or.inl rfl)
